import Mathlib

/-!
Shallow embedding of the trial-extraction and error-labelling pipeline of
EEGLib/EEG.py (class EEG).  Machine floats are modelled as exact rationals:
every numeric value these claims exercise is dyadic, and binary floating
point is exact on the dyadic arithmetic performed here (sums, differences,
products with powers of two).  numpy arrays are modelled as lists of lists
of rationals; a fallible Python step (an unpack of None, an out-of-range
index) is modelled with Option/Except.
-/

/-- Truncation toward zero: Python's int() applied to a float value. -/
def truncInt (q : ℚ) : ℤ := if 0 ≤ q then ⌊q⌋ else ⌈q⌉

/-- numpy astype(np.uint) applied to the nonnegative onset values:
truncation toward zero. -/
def truncNat (q : ℚ) : ℕ := (truncInt q).toNat

/-- Python slice-index normalisation: a negative index counts from the end,
then the index is clamped to the range [0, len]. -/
def pyBound (len : ℕ) (i : ℤ) : ℕ :=
  (min (max (if i < 0 then i + len else i) 0) (len : ℤ)).toNat

/-- Python list slicing l[start:stop] (unit step), which is also what
mne.io.Raw.get_data(start=..., stop=...) performs on each channel row. -/
def pySlice {α : Type} (l : List α) (start stop : ℤ) : List α :=
  (l.take (pyBound l.length stop)).drop (pyBound l.length start)

/-- The number of samples data[:, start:stop] has, computed from the total
sample count (numpy derives it from the array shape). -/
def sliceLen (len : ℕ) (start stop : ℤ) : ℕ :=
  pyBound len stop - pyBound len start

/-- The slice of an mne Raw object that the pipeline reads: channel names,
the channels-by-samples data matrix, the sampling-rate metadata, and the
annotation onset and description sequences. -/
structure Recording where
  chNames : List String
  nsamp : ℕ
  data : List (List ℚ)
  sfreq : ℚ
  onsets : List ℚ
  descriptions : List String
deriving DecidableEq, Repr

/-- The slice of EE385VMatFile that EEG.py reads (the class itself lives in
a file outside src/): the states matrix as (row 0 = intended code,
row 1 = actual code) columns, and the action sequence. -/
structure EE385VMatFile where
  states : List (ℤ × ℤ)
  actions : List ℤ
deriving DecidableEq, Repr

/-- The per-column labelling rule of EEG.identifyErrors (lines 262-268).
The appended np.NaN is modelled as none, True as some true, False as
some false. -/
def labelOf (c : ℤ × ℤ) : Option Bool :=
  if c.1 < 0 then none else if c.1 ≠ c.2 then some true else some false

/-- EEG.identifyErrors (lines 247-270), including the trimmed description
sequence it computes (and then never uses): returns
(error list, annotation onset times, annotation descriptions). -/
def identifyErrorsFull (gdf : Recording) (mat : EE385VMatFile) :
    List (Option Bool) × List ℚ × List String :=
  let ann_time := (gdf.onsets.drop 1).dropLast
  let ann_desc := (gdf.descriptions.drop 1).dropLast
  let intention := mat.actions
  let states := (mat.states.drop 1).take intention.length
  (states.map labelOf, ann_time, ann_desc)

/-- The pair EEG.identifyErrors actually returns: (error, annotation_time). -/
def identifyErrors (gdf : Recording) (mat : EE385VMatFile) :
    List (Option Bool) × List ℚ :=
  ((identifyErrorsFull gdf mat).1, (identifyErrorsFull gdf mat).2.1)

theorem identifyErrors_fst_eq (gdf : Recording) (mat : EE385VMatFile) :
    (identifyErrors gdf mat).1 =
      ((mat.states.drop 1).take mat.actions.length).map labelOf := rfl

theorem identifyErrors_snd_eq (gdf : Recording) (mat : EE385VMatFile) :
    (identifyErrors gdf mat).2 = (gdf.onsets.drop 1).dropLast := rfl

/-- C1: every derived error label is one of none / some true / some false
(Undefined / True / False); it is none exactly when the intended code
(row 0) is negative, and for a non-negative intended code it is some true
exactly when the intended code differs from the actual code (row 1) and
some false exactly when they agree. -/
theorem identifyErrors_label_rule (gdf : Recording) (mat : EE385VMatFile)
    (i : ℕ) (c : ℤ × ℤ)
    (hc : ((mat.states.drop 1).take mat.actions.length).get? i = some c) :
    ∃ lab, (identifyErrors gdf mat).1.get? i = some lab ∧
      (lab = none ∨ lab = some true ∨ lab = some false) ∧
      (lab = none ↔ c.1 < 0) ∧
      (0 ≤ c.1 → (lab = some true ↔ c.1 ≠ c.2)) ∧
      (0 ≤ c.1 → (lab = some false ↔ c.1 = c.2)) := by
  refine ⟨labelOf c, ?_, ?_, ?_, ?_, ?_⟩
  · rw [identifyErrors_fst_eq, List.get?_map, hc]
    rfl
  · unfold labelOf
    split_ifs <;> simp
  · unfold labelOf
    split_ifs with h1 h2 <;> simp [h1]
  · intro hpos
    unfold labelOf
    rw [if_neg (not_lt.mpr hpos)]
    split_ifs with h2 <;> simp [h2] <;> exact not_not.mp h2
  · intro hpos
    unfold labelOf
    rw [if_neg (not_lt.mpr hpos)]
    split_ifs with h2 <;> simp [h2] <;> exact not_not.mp h2

/-- C2: identifyErrors trims exactly the first and last entry of the
annotation onset sequence (and the returned onset-time sequence is that
trimmed sequence), trims exactly the first and last entry of the
description sequence, discards the first state column, and truncates the
state matrix to its first |actions| columns. -/
theorem identifyErrors_alignment (gdf : Recording) (mat : EE385VMatFile) :
    (identifyErrors gdf mat).2.length = gdf.onsets.length - 2 ∧
    (∀ i, i + 2 < gdf.onsets.length →
      (identifyErrors gdf mat).2.get? i = gdf.onsets.get? (i + 1)) ∧
    (identifyErrorsFull gdf mat).2.2.length = gdf.descriptions.length - 2 ∧
    (∀ i, i + 2 < gdf.descriptions.length →
      (identifyErrorsFull gdf mat).2.2.get? i = gdf.descriptions.get? (i + 1)) ∧
    (identifyErrors gdf mat).1.length =
      min mat.actions.length (mat.states.length - 1) ∧
    (∀ i c, i < mat.actions.length → mat.states.get? (i + 1) = some c →
      (identifyErrors gdf mat).1.get? i = some (labelOf c)) := by
  refine ⟨?_, ?_, ?_, ?_, ?_, ?_⟩
  · rw [identifyErrors_snd_eq]
    simp only [List.length_dropLast, List.length_drop]
    omega
  · intro i hi
    rw [identifyErrors_snd_eq, List.dropLast_eq_take]
    have hlen : (gdf.onsets.drop 1).length - 1 = gdf.onsets.length - 2 := by
      simp only [List.length_drop]; omega
    rw [hlen, List.get?_take (by omega), List.get?_drop]
    norm_num [Nat.add_comm]
  · show ((gdf.descriptions.drop 1).dropLast).length = _
    simp only [List.length_dropLast, List.length_drop]
    omega
  · intro i hi
    show ((gdf.descriptions.drop 1).dropLast).get? i = _
    rw [List.dropLast_eq_take]
    have hlen : (gdf.descriptions.drop 1).length - 1 =
        gdf.descriptions.length - 2 := by
      simp only [List.length_drop]; omega
    rw [hlen, List.get?_take (by omega), List.get?_drop]
    norm_num [Nat.add_comm]
  · rw [identifyErrors_fst_eq]
    simp only [List.length_map, List.length_take, List.length_drop]
  · intro i c hi hc
    rw [identifyErrors_fst_eq, List.get?_map, List.get?_take hi,
      List.get?_drop, Nat.add_comm 1 i, hc]
    rfl

/-- A small concrete recording used by the witnesses: one EEG channel of 8
samples, three annotations (the outer two bound the session). -/
def recW : Recording :=
  { chNames := ["Fz"], nsamp := 8,
    data := [[0, 1, 2, 3, 4, 5, 6, 7]],
    sfreq := 512, onsets := [0, 1/128, 9],
    descriptions := ["768", "1", "769"] }

/-- A small concrete behaviour record used by the witnesses: one action,
one pre-trial state column followed by one trial column (intended 1,
actual 2, so the trial is an error). -/
def matW : EE385VMatFile := { states := [(9, 9), (1, 2)], actions := [0] }

theorem identifyErrors_label_rule_witness :
    ((matW.states.drop 1).take matW.actions.length).get? 0 =
        some ((1 : ℤ), (2 : ℤ)) ∧
    (∃ lab, (identifyErrors recW matW).1.get? 0 = some lab ∧
      (lab = none ∨ lab = some true ∨ lab = some false) ∧
      (lab = none ↔ ((1 : ℤ), (2 : ℤ)).1 < 0) ∧
      (0 ≤ ((1 : ℤ), (2 : ℤ)).1 →
        (lab = some true ↔ ((1 : ℤ), (2 : ℤ)).1 ≠ ((1 : ℤ), (2 : ℤ)).2)) ∧
      (0 ≤ ((1 : ℤ), (2 : ℤ)).1 →
        (lab = some false ↔ ((1 : ℤ), (2 : ℤ)).1 = ((1 : ℤ), (2 : ℤ)).2))) :=
  ⟨by decide, identifyErrors_label_rule recW matW 0 (1, 2) (by decide)⟩

theorem identifyErrors_alignment_witness :
    (0 + 2 < recW.onsets.length ∧
      (identifyErrors recW matW).2.get? 0 = recW.onsets.get? (0 + 1)) ∧
    (identifyErrors recW matW).2.get? 0 = some (1/128 : ℚ) :=
  ⟨⟨by decide, (identifyErrors_alignment recW matW).2.1 0 (by decide)⟩,
    by with_unfolding_all decide⟩

/-- Sum across channels of the values at sample point j (numpy's column
sum; out-of-range rows contribute 0, which never happens on the
rectangular arrays numpy actually builds). -/
def colSum (slice : List (List ℚ)) (j : ℕ) : ℚ :=
  (slice.map (fun ch => ch.getD j 0)).sum

/-- The sample count of a channels-by-samples slice (numpy shape[1]). -/
def numSamples (slice : List (List ℚ)) : ℕ := (slice.headD []).length

/-- np.mean(eeg_slice, axis=0): the per-sample mean across channels. -/
def globalAvg (slice : List (List ℚ)) : List ℚ :=
  (List.range (numSamples slice)).map
    (fun j => colSum slice j / (slice.length : ℚ))

/-- One trial slice after the broadcast in-place subtraction
eeg_slice -= global_avg. -/
def carSlice (slice : List (List ℚ)) : List (List ℚ) :=
  slice.map (fun ch => List.zipWith (fun a b => a - b) ch (globalAvg slice))

/-- np.zeros(eegVolume.shape). -/
def zerosLike (v : List (List (List ℚ))) : List (List (List ℚ)) :=
  v.map (fun s => s.map (fun ch => ch.map (fun _ => 0)))

/-- The loop of EEG.CARFilter (lines 175-179).  Each pass takes the slice
eegVolume[trigger] (a numpy view), subtracts its channel mean in place --
mutating the caller's volume -- and writes the same values into filtered.
The pair is (current state of eegVolume, current state of filtered). -/
def carAux : ℕ → ℕ → List (List (List ℚ)) → List (List (List ℚ)) →
    List (List (List ℚ)) × List (List (List ℚ))
  | 0, _, vol, filt => (vol, filt)
  | rem + 1, i, vol, filt =>
      carAux rem (i + 1) (vol.set i (carSlice ((vol.get? i).getD [])))
        (filt.set i (carSlice ((vol.get? i).getD [])))

/-- EEG.CARFilter (lines 166-181) with its side effect made explicit:
the first component is the returned filtered volume, the second is the
contents of the argument array after the call. -/
def CARFilterRun (eegVolume : List (List (List ℚ))) :
    List (List (List ℚ)) × List (List (List ℚ)) :=
  ((carAux eegVolume.length 0 eegVolume (zerosLike eegVolume)).2,
   (carAux eegVolume.length 0 eegVolume (zerosLike eegVolume)).1)

/-- The value EEG.CARFilter returns. -/
def CARFilter (eegVolume : List (List (List ℚ))) : List (List (List ℚ)) :=
  (CARFilterRun eegVolume).1

/-- A trial slice is rectangular: every channel row has the slice's sample
count.  numpy 2-D arrays always satisfy this. -/
def sliceRect (s : List (List ℚ)) : Bool :=
  s.all (fun ch => ch.length == numSamples s)

/-- A trial volume is rectangular trial by trial.  numpy 3-D arrays always
satisfy this. -/
def volRect (v : List (List (List ℚ))) : Bool := v.all sliceRect

/-- The trial-by-channel row lengths of a volume. -/
def shapeOf (v : List (List (List ℚ))) : List (List ℕ) :=
  v.map (fun s => s.map List.length)

/-- The mean across channels at sample point j. -/
def chanMean (slice : List (List ℚ)) (j : ℕ) : ℚ :=
  colSum slice j / (slice.length : ℚ)

theorem zipWith_get?_eq {α β γ : Type} (f : α → β → γ) :
    ∀ (l₁ : List α) (l₂ : List β) (j : ℕ),
      (List.zipWith f l₁ l₂).get? j =
        (l₁.get? j).bind (fun a => (l₂.get? j).map (f a))
  | [], _, _ => by simp
  | _ :: _, [], _ => by simp
  | a :: l₁, b :: l₂, 0 => by simp
  | a :: l₁, b :: l₂, j + 1 => by
      simpa using zipWith_get?_eq f l₁ l₂ j

theorem sum_map_sub {α : Type} (f : α → ℚ) (k : ℚ) :
    ∀ s : List α, (s.map (fun x => f x - k)).sum =
      (s.map f).sum - (s.length : ℚ) * k
  | [] => by simp
  | a :: s => by
      simp only [List.map_cons, List.sum_cons, List.length_cons,
        sum_map_sub f k s]
      push_cast
      ring

theorem sliceRect_iff (s : List (List ℚ)) :
    sliceRect s = true ↔ ∀ ch ∈ s, ch.length = numSamples s := by
  simp [sliceRect]

theorem globalAvg_length (s : List (List ℚ)) :
    (globalAvg s).length = numSamples s := by
  simp [globalAvg]

theorem globalAvg_get? (s : List (List ℚ)) (j : ℕ) (hj : j < numSamples s) :
    (globalAvg s).get? j = some (colSum s j / (s.length : ℚ)) := by
  unfold globalAvg
  rw [List.get?_map, List.get?_range hj]
  rfl

theorem carSlice_length (s : List (List ℚ)) :
    (carSlice s).length = s.length := by
  simp [carSlice]

theorem carSlice_channel_length (s : List (List ℚ))
    (hr : sliceRect s = true) :
    ∀ ch ∈ carSlice s, ch.length = numSamples s := by
  intro ch hch
  obtain ⟨ch₀, hch₀, rfl⟩ := List.mem_map.mp hch
  rw [List.length_zipWith, globalAvg_length,
    (sliceRect_iff s).mp hr ch₀ hch₀, min_self]

theorem carSlice_numSamples (s : List (List ℚ)) (hr : sliceRect s = true) :
    numSamples (carSlice s) = numSamples s := by
  cases s with
  | nil => rfl
  | cons ch₀ rest =>
      have h₀ : ch₀.length = numSamples (ch₀ :: rest) :=
        (sliceRect_iff _).mp hr ch₀ (by simp)
      show (List.zipWith _ ch₀ (globalAvg (ch₀ :: rest))).length = _
      rw [List.length_zipWith, globalAvg_length, h₀, min_self]

theorem carSlice_entry (s : List (List ℚ)) (hr : sliceRect s = true)
    (ch : List ℚ) (hch : ch ∈ s) (j : ℕ) (hj : j < numSamples s) :
    (List.zipWith (fun a b => a - b) ch (globalAvg s)).getD j 0 =
      ch.getD j 0 - colSum s j / (s.length : ℚ) := by
  have hlen : ch.length = numSamples s := (sliceRect_iff s).mp hr ch hch
  have hjch : j < ch.length := by omega
  rw [List.getD_eq_getD_get?, List.getD_eq_getD_get?,
    zipWith_get?_eq, List.get?_eq_get hjch, globalAvg_get? s j hj]
  rfl

theorem carSlice_colSum_zero (s : List (List ℚ)) (hr : sliceRect s = true)
    (hn : s ≠ []) (j : ℕ) (hj : j < numSamples s) :
    colSum (carSlice s) j = 0 := by
  unfold colSum carSlice
  rw [List.map_map]
  have hcong : s.map ((fun ch => ch.getD j 0) ∘
        (fun ch => List.zipWith (fun a b => a - b) ch (globalAvg s))) =
      s.map (fun ch => ch.getD j 0 - colSum s j / (s.length : ℚ)) :=
    List.map_congr_left (fun ch hch => carSlice_entry s hr ch hch j hj)
  rw [hcong, sum_map_sub]
  have hlen : (s.length : ℚ) ≠ 0 := by
    have : s.length ≠ 0 := fun h => hn (List.length_eq_zero.mp h)
    exact_mod_cast this
  rw [mul_div_cancel₀ _ hlen]
  show colSum s j - colSum s j = 0
  ring

theorem zipWith_sub_zeros : ∀ (l z : List ℚ), (∀ x ∈ z, x = 0) →
    l.length ≤ z.length → List.zipWith (fun a b => a - b) l z = l
  | [], _, _, _ => by simp
  | a :: l, [], _, h => by simp at h
  | a :: l, b :: z, hz, h => by
      have hb : b = 0 := hz b (by simp)
      simp only [List.zipWith_cons_cons, hb, sub_zero, List.cons.injEq,
        true_and]
      exact zipWith_sub_zeros l z (fun x hx => hz x (by simp [hx]))
        (by simpa using h)

theorem carSlice_idem (s : List (List ℚ)) (hr : sliceRect s = true) :
    carSlice (carSlice s) = carSlice s := by
  cases hs : s with
  | nil => rfl
  | cons ch₀ rest =>
      rw [← hs]
      have hn : s ≠ [] := by simp [hs]
      have havg : ∀ x ∈ globalAvg (carSlice s), x = 0 := by
        intro x hx
        obtain ⟨j, hj, rfl⟩ := List.mem_map.mp hx
        have hjlt : j < numSamples (carSlice s) := List.mem_range.mp hj
        rw [carSlice_numSamples s hr] at hjlt
        rw [carSlice_colSum_zero s hr hn j hjlt]
        simp
      have hlen : (globalAvg (carSlice s)).length = numSamples s := by
        rw [globalAvg_length, carSlice_numSamples s hr]
      nth_rewrite 1 [carSlice]
      have : (carSlice s).map
          (fun ch => List.zipWith (fun a b => a - b) ch
            (globalAvg (carSlice s))) = (carSlice s).map (fun ch => ch) :=
        List.map_congr_left (fun ch hch => by
          exact zipWith_sub_zeros ch (globalAvg (carSlice s)) havg
            (by rw [hlen, carSlice_channel_length s hr ch hch]))
      rw [this, List.map_id']

theorem volRect_iff (v : List (List (List ℚ))) :
    volRect v = true ↔ ∀ s ∈ v, sliceRect s = true := by
  simp [volRect]

theorem carAux_get? : ∀ (rem i : ℕ) (vol filt : List (List (List ℚ))),
    filt.length = vol.length → ∀ j : ℕ,
    ((carAux rem i vol filt).1.get? j =
      if i ≤ j ∧ j < i + rem then (vol.get? j).map carSlice
      else vol.get? j) ∧
    ((carAux rem i vol filt).2.get? j =
      if i ≤ j ∧ j < i + rem then (vol.get? j).map carSlice
      else filt.get? j)
  | 0, i, vol, filt, _, j => by
      simp only [carAux]
      rw [if_neg (by omega), if_neg (by omega)]
      exact ⟨rfl, rfl⟩
  | rem + 1, i, vol, filt, hlen, j => by
      simp only [carAux]
      have hlen' : (filt.set i (carSlice ((vol.get? i).getD []))).length =
          (vol.set i (carSlice ((vol.get? i).getD []))).length := by
        simp [hlen]
      obtain ⟨h1, h2⟩ := carAux_get? rem (i + 1)
        (vol.set i (carSlice ((vol.get? i).getD [])))
        (filt.set i (carSlice ((vol.get? i).getD []))) hlen' j
      by_cases hij : j = i
      · subst hij
        rw [if_pos (by omega), if_pos (by omega)]
        rw [if_neg (by omega)] at h1 h2
        rw [List.get?_set_eq] at h1 h2
        constructor
        · rw [h1]
          cases hv : vol.get? j with
          | none => simp
          | some w => simp [hv]
        · rw [h2]
          cases hv : vol.get? j with
          | none =>
              have hvl : vol.length ≤ j := List.get?_eq_none.mp hv
              have hfn : filt.get? j = none :=
                List.get?_eq_none.mpr (by omega)
              rw [hfn]
              rfl
          | some w =>
              have hjlt : j < filt.length := by
                by_contra hge
                rw [List.get?_eq_none.mpr (by omega)] at hv
                exact Option.noConfusion hv
              obtain ⟨f₀, hf⟩ : ∃ f₀, filt.get? j = some f₀ :=
                ⟨filt.get ⟨j, hjlt⟩, List.get?_eq_get hjlt⟩
              rw [hf]
              rfl
      · have hne : i ≠ j := fun h => hij h.symm
        rw [List.get?_set_ne (carSlice ((vol.get? i).getD [])) vol hne]
          at h1 h2
        rw [List.get?_set_ne (carSlice ((vol.get? i).getD [])) filt hne]
          at h2
        by_cases hcond : i ≤ j ∧ j < i + (rem + 1)
        · rw [if_pos hcond, if_pos hcond]
          rw [if_pos (by omega)] at h1 h2
          exact ⟨h1, h2⟩
        · rw [if_neg hcond, if_neg hcond]
          rw [if_neg (by omega)] at h1 h2
          exact ⟨h1, h2⟩

theorem CARFilterRun_eq (v : List (List (List ℚ))) :
    CARFilterRun v = (v.map carSlice, v.map carSlice) := by
  have hz : (zerosLike v).length = v.length := by simp [zerosLike]
  unfold CARFilterRun
  refine Prod.ext ?_ ?_
  · show (carAux v.length 0 v (zerosLike v)).2 = v.map carSlice
    apply List.ext
    intro j
    rw [(carAux_get? v.length 0 v (zerosLike v) hz j).2, List.get?_map]
    by_cases hj : j < v.length
    · rw [if_pos (by omega)]
    · rw [if_neg (by omega), List.get?_eq_none.mpr (by rw [hz]; omega),
        List.get?_eq_none.mpr (show v.length ≤ j by omega)]
      rfl
  · show (carAux v.length 0 v (zerosLike v)).1 = v.map carSlice
    apply List.ext
    intro j
    rw [(carAux_get? v.length 0 v (zerosLike v) hz j).1, List.get?_map]
    by_cases hj : j < v.length
    · rw [if_pos (by omega)]
    · rw [if_neg (by omega),
        List.get?_eq_none.mpr (show v.length ≤ j by omega)]
      rfl

theorem CARFilter_eq_map (v : List (List (List ℚ))) :
    CARFilter v = v.map carSlice := by
  rw [CARFilter, CARFilterRun_eq]

/-- C5: after CARFilter, in exact arithmetic, the mean across channels of
every trial slice at every sample point is zero (for nonempty channel
sets, on the rectangular slices numpy arrays always are). -/
theorem CARFilter_zero_mean (v : List (List (List ℚ)))
    (hv : volRect v = true) :
    ∀ sl ∈ CARFilter v, 0 < sl.length →
      ∀ j, j < numSamples sl → chanMean sl j = 0 := by
  intro sl hsl hpos j hj
  rw [CARFilter_eq_map] at hsl
  obtain ⟨s, hs, rfl⟩ := List.mem_map.mp hsl
  have hr : sliceRect s = true := (volRect_iff v).mp hv s hs
  have hn : s ≠ [] := by
    intro h
    subst h
    simp [carSlice] at hpos
  rw [carSlice_numSamples s hr] at hj
  unfold chanMean
  rw [carSlice_colSum_zero s hr hn j hj, zero_div]

/-- C9: CARFilter is idempotent on (rectangular) trial volumes: the result
of one application is already zero-mean across channels, so a second
application subtracts zero everywhere. -/
theorem CARFilter_idempotent (v : List (List (List ℚ)))
    (hv : volRect v = true) :
    CARFilter (CARFilter v) = CARFilter v := by
  rw [CARFilter_eq_map v, CARFilter_eq_map, List.map_map]
  exact List.map_congr_left (fun s hs =>
    carSlice_idem s ((volRect_iff v).mp hv s hs))

/-- C6 counterexample: CARFilter is not pure.  On the concrete volume
[[[1],[3]]] the argument array does not keep its original contents across
the call: the in-place subtraction overwrites it. -/
theorem CARFilterRun_not_pure_cex :
    (CARFilterRun [[[(1 : ℚ)], [3]]]).2 ≠ [[[(1 : ℚ)], [3]]] := by
  with_unfolding_all decide

/-- C6 amended: CARFilter returns a new volume of identical shape, but it
mutates the volume it was given: after the call the argument array holds
exactly the returned filtered values (not its original contents). -/
theorem CARFilter_mutation_shape (v : List (List (List ℚ)))
    (hv : volRect v = true) :
    (CARFilterRun v).2 = (CARFilterRun v).1 ∧
    shapeOf (CARFilterRun v).1 = shapeOf v := by
  rw [CARFilterRun_eq]
  refine ⟨rfl, ?_⟩
  unfold shapeOf
  rw [List.map_map]
  apply List.map_congr_left
  intro s hs
  have hr : sliceRect s = true := (volRect_iff v).mp hv s hs
  show (carSlice s).map List.length = s.map List.length
  unfold carSlice
  rw [List.map_map]
  apply List.map_congr_left
  intro ch hch
  show (List.zipWith _ ch (globalAvg s)).length = ch.length
  rw [List.length_zipWith, globalAvg_length,
    (sliceRect_iff s).mp hr ch hch, min_self]

/-- A small concrete rectangular trial volume: one trial, two channels,
two samples. -/
def volW : List (List (List ℚ)) := [[[1, 3], [3, 1]]]

theorem CARFilter_zero_mean_witness :
    volRect volW = true ∧
    [[(-1 : ℚ), 1], [1, -1]] ∈ CARFilter volW ∧
    0 < ([[(-1 : ℚ), 1], [1, -1]] : List (List ℚ)).length ∧
    0 < numSamples [[(-1 : ℚ), 1], [1, -1]] ∧
    chanMean [[(-1 : ℚ), 1], [1, -1]] 0 = 0 :=
  ⟨by decide, by with_unfolding_all decide, by decide, by decide,
    CARFilter_zero_mean volW (by decide) [[(-1 : ℚ), 1], [1, -1]]
      (by with_unfolding_all decide) (by decide) 0 (by decide)⟩

theorem CARFilter_idempotent_witness :
    volRect volW = true ∧ CARFilter (CARFilter volW) = CARFilter volW :=
  ⟨by decide, CARFilter_idempotent volW (by decide)⟩

theorem CARFilter_mutation_shape_witness :
    volRect volW = true ∧
    ((CARFilterRun volW).2 = (CARFilterRun volW).1 ∧
      shapeOf (CARFilterRun volW).1 = shapeOf volW) :=
  ⟨by decide, CARFilter_mutation_shape volW (by decide)⟩

/-- EEG.timeToSample (lines 227-235): seconds times sampling frequency,
with the source's default fs of 512. -/
def timeToSample (time : ℚ) (fs : ℚ) : ℚ := time * fs

/-- EEG.timeArrayToSampleArray (lines 237-245): elementwise timeToSample
followed by the astype(np.uint) truncation. -/
def timeArrayToSampleArray (time : List ℚ) (fs : ℚ) : List ℕ :=
  time.map (fun t => truncNat (timeToSample t fs))

/-- mne Raw.get_data(start=..., stop=...): every channel row sliced with
Python slice semantics. -/
def get_data (gdf : Recording) (start stop : ℤ) : List (List ℚ) :=
  gdf.data.map (fun ch => pySlice ch start stop)

/-- The visualisation ramp of getEEGTrials lines 150-151: channel y gets
y*offset_value*1e-6 added to every sample. -/
def addRampAux (offset_value : ℚ) : ℕ → List (List ℚ) → List (List ℚ)
  | _, [] => []
  | y, row :: rest =>
      row.map (fun v => v + (y : ℚ) * offset_value * (1 / 1000000)) ::
        addRampAux offset_value (y + 1) rest

/-- One pass of the loop body of getEEGTrials (lines 139-157) for a single
(onset sample t, label e): the window that pass appends, if any. -/
def keepWindow (gdf_use : Recording) (error : Bool) (pretime_s posttime_s : ℚ)
    (offset plot : Bool) (offset_value : ℚ) (t : ℕ) (e : Option Bool) :
    Option (List (List ℚ)) :=
  match e with
  | none => none
  | some b =>
    if b = error then
      let start := truncInt ((t : ℚ) + pretime_s)
      let stop := truncInt ((t : ℚ) + posttime_s)
      if ((sliceLen gdf_use.nsamp start stop : ℚ) =
          pretime_s * (-1) + posttime_s) then
        if plot || offset then
          some (addRampAux offset_value 0 (get_data gdf_use start stop))
        else
          some (get_data gdf_use start stop)
      else none
    else none

/-- gdf_array accumulation of getEEGTrials lines 153-157: None until the
first window, np.append afterwards. -/
def appendVol (acc : Option (List (List (List ℚ)))) (w : List (List ℚ)) :
    Option (List (List (List ℚ))) :=
  match acc with
  | none => some [w]
  | some ws => some (ws ++ [w])

/-- The loop of getEEGTrials lines 139-157: x ranges over the onset-sample
array while error_array[x] is read positionally; running past the end of
error_array is Python's IndexError. -/
def trialLoop (gdf_use : Recording) (error : Bool)
    (pretime_s posttime_s : ℚ) (offset plot : Bool) (offset_value : ℚ) :
    List ℕ → List (Option Bool) → Option (List (List (List ℚ))) →
    Except String (Option (List (List (List ℚ))))
  | [], _, acc => .ok acc
  | _ :: _, [], _ => .error "IndexError"
  | t :: ts, e :: es, acc =>
      trialLoop gdf_use error pretime_s posttime_s offset plot offset_value
        ts es
        (match keepWindow gdf_use error pretime_s posttime_s offset plot
            offset_value t e with
         | none => acc
         | some w => appendVol acc w)

/-- EEG.getEEGTrials (lines 111-164).  self_gdf/self_mat are the object
state identifyErrors reads; gdf_use is the recording get_data slices
(the gdf argument, or the object state when the argument is left at its
sentinel default).  The fs used in lines 130, 131 and 135 is the constant
512, not a value read from either recording.  The trailing plot block
(lines 159-162) indexes gdf_array, which raises on None or a bad
plot_trigger. -/
def getEEGTrials (self_gdf : Recording) (self_mat : EE385VMatFile)
    (pretime posttime : ℚ) (error : Bool) (gdf_use : Recording)
    (offset : Bool) (offset_value : ℚ) (plot : Bool) (plot_trigger : ℕ) :
    Except String (Option (List (List (List ℚ)))) :=
  match trialLoop gdf_use error (timeToSample pretime 512 * (-1))
      (timeToSample posttime 512) offset plot offset_value
      (timeArrayToSampleArray (identifyErrors self_gdf self_mat).2 512)
      (identifyErrors self_gdf self_mat).1 none with
  | .error s => .error s
  | .ok gdf_array =>
    if plot then
      match gdf_array with
      | none => .error "TypeError"
      | some ws =>
          if plot_trigger < ws.length then .ok gdf_array
          else .error "IndexError"
    else .ok gdf_array

/-- The surviving windows in trial order: the filterMap view of the loop,
used to state what getEEGTrials collects. -/
def extractedWindows (self_gdf : Recording) (self_mat : EE385VMatFile)
    (pretime posttime : ℚ) (error : Bool) (gdf_use : Recording)
    (offset : Bool) (offset_value : ℚ) (plot : Bool) :
    List (List (List ℚ)) :=
  ((timeArrayToSampleArray (identifyErrors self_gdf self_mat).2 512).zip
      (identifyErrors self_gdf self_mat).1).filterMap
    (fun q => keepWindow gdf_use error (timeToSample pretime 512 * (-1))
      (timeToSample posttime 512) offset plot offset_value q.1 q.2)

/-- None for an empty window list, some otherwise (the None/array state of
gdf_array at the end of the loop). -/
def optVol (l : List (List (List ℚ))) : Option (List (List (List ℚ))) :=
  match l with
  | [] => none
  | _ => some l

/-- Every data channel of the recording has nsamp samples; true of every
mne Raw object. -/
def recRect (gdf : Recording) : Bool :=
  gdf.data.all (fun ch => ch.length == gdf.nsamp)

theorem pyBound_le (len : ℕ) (i : ℤ) : pyBound len i ≤ len := by
  unfold pyBound
  rw [← Int.toNat_ofNat len]
  exact Int.toNat_le_toNat (min_le_right _ _)

theorem pySlice_length {α : Type} (l : List α) (start stop : ℤ) :
    (pySlice l start stop).length = sliceLen l.length start stop := by
  unfold pySlice sliceLen
  rw [List.length_drop, List.length_take,
    min_eq_left (pyBound_le l.length stop)]

theorem addRampAux_length (ov : ℚ) :
    ∀ (y : ℕ) (w : List (List ℚ)), (addRampAux ov y w).length = w.length
  | _, [] => rfl
  | y, row :: rest => by
      simp only [addRampAux, List.length_cons, addRampAux_length ov (y + 1)]

theorem addRampAux_mem (ov : ℚ) :
    ∀ (y : ℕ) (w : List (List ℚ)) (ch : List ℚ),
      ch ∈ addRampAux ov y w → ∃ row ∈ w, ch.length = row.length
  | _, [], ch, h => by simp [addRampAux] at h
  | y, row :: rest, ch, h => by
      rw [addRampAux, List.mem_cons] at h
      cases h with
      | inl h => exact ⟨row, by simp, by simp [h]⟩
      | inr h =>
          obtain ⟨r, hr, hl⟩ := addRampAux_mem ov (y + 1) rest ch h
          exact ⟨r, by simp [hr], hl⟩

theorem keepWindow_shape (gdf_use : Recording) (error : Bool)
    (pretime_s posttime_s : ℚ) (offset plot : Bool) (offset_value : ℚ)
    (t : ℕ) (e : Option Bool) (w : List (List ℚ))
    (hrect : recRect gdf_use = true)
    (hw : keepWindow gdf_use error pretime_s posttime_s offset plot
      offset_value t e = some w) :
    w.length = gdf_use.data.length ∧
    ∀ ch ∈ w, (ch.length : ℚ) = pretime_s * (-1) + posttime_s := by
  unfold keepWindow at hw
  cases e with
  | none => exact absurd hw (by simp)
  | some b =>
      simp only at hw
      by_cases hb : b = error
      · rw [if_pos hb] at hw
        by_cases hchk : ((sliceLen gdf_use.nsamp
            (truncInt ((t : ℚ) + pretime_s))
            (truncInt ((t : ℚ) + posttime_s)) : ℚ) =
            pretime_s * (-1) + posttime_s)
        · rw [if_pos hchk] at hw
          have hlench : ∀ ch ∈ get_data gdf_use
              (truncInt ((t : ℚ) + pretime_s))
              (truncInt ((t : ℚ) + posttime_s)),
              (ch.length : ℚ) = pretime_s * (-1) + posttime_s := by
            intro ch hch
            obtain ⟨ch₀, hch₀, rfl⟩ := List.mem_map.mp hch
            rw [pySlice_length]
            have : ch₀.length = gdf_use.nsamp := by
              have hb := List.all_eq_true.mp hrect ch₀ hch₀
              exact beq_iff_eq.mp hb
            rw [this, hchk]
          cases hpo : (plot || offset) with
          | true =>
              rw [hpo, if_pos rfl] at hw
              obtain rfl : addRampAux offset_value 0 (get_data gdf_use _ _)
                  = w := Option.some.inj hw
              constructor
              · rw [addRampAux_length]
                unfold get_data
                rw [List.length_map]
              · intro ch hch
                obtain ⟨row, hrow, hl⟩ := addRampAux_mem _ _ _ _ hch
                rw [hl]
                exact hlench row hrow
          | false =>
              rw [hpo] at hw
              simp only [Bool.false_eq_true, if_false] at hw
              obtain rfl : get_data gdf_use _ _ = w := Option.some.inj hw
              constructor
              · unfold get_data
                rw [List.length_map]
              · exact hlench
        · rw [if_neg hchk] at hw
          exact absurd hw (by simp)
      · rw [if_neg hb] at hw
        exact absurd hw (by simp)

theorem trialLoop_append (gdf_use : Recording) (error : Bool)
    (pretime_s posttime_s : ℚ) (offset plot : Bool) (offset_value : ℚ) :
    ∀ (ts : List ℕ) (es : List (Option Bool)) (ws : List (List (List ℚ))),
      ts.length ≤ es.length →
      trialLoop gdf_use error pretime_s posttime_s offset plot offset_value
        ts es (some ws) =
      .ok (some (ws ++ (ts.zip es).filterMap
        (fun q => keepWindow gdf_use error pretime_s posttime_s offset plot
          offset_value q.1 q.2)))
  | [], _, ws, _ => by simp [trialLoop]
  | t :: ts, [], ws, h => by simp at h
  | t :: ts, e :: es, ws, h => by
      rw [trialLoop]
      cases hk : keepWindow gdf_use error pretime_s posttime_s offset plot
          offset_value t e with
      | none =>
          rw [trialLoop_append gdf_use error pretime_s posttime_s offset
            plot offset_value ts es ws (by simpa using h)]
          simp [hk]
      | some w =>
          show trialLoop gdf_use error pretime_s posttime_s offset plot
            offset_value ts es (appendVol (some ws) w) = _
          rw [appendVol]
          rw [trialLoop_append gdf_use error pretime_s posttime_s offset
            plot offset_value ts es (ws ++ [w]) (by simpa using h)]
          simp [hk]

theorem trialLoop_none_start (gdf_use : Recording) (error : Bool)
    (pretime_s posttime_s : ℚ) (offset plot : Bool) (offset_value : ℚ) :
    ∀ (ts : List ℕ) (es : List (Option Bool)),
      ts.length ≤ es.length →
      trialLoop gdf_use error pretime_s posttime_s offset plot offset_value
        ts es none =
      .ok (optVol ((ts.zip es).filterMap
        (fun q => keepWindow gdf_use error pretime_s posttime_s offset plot
          offset_value q.1 q.2)))
  | [], _, _ => by simp [trialLoop, optVol]
  | t :: ts, [], h => by simp at h
  | t :: ts, e :: es, h => by
      rw [trialLoop]
      cases hk : keepWindow gdf_use error pretime_s posttime_s offset plot
          offset_value t e with
      | none =>
          rw [trialLoop_none_start gdf_use error pretime_s posttime_s
            offset plot offset_value ts es (by simpa using h)]
          simp [hk]
      | some w =>
          show trialLoop gdf_use error pretime_s posttime_s offset plot
            offset_value ts es (appendVol none w) = _
          rw [appendVol]
          rw [trialLoop_append gdf_use error pretime_s posttime_s offset
            plot offset_value ts es [w] (by simpa using h)]
          simp [hk, optVol]

theorem trialLoop_mem (gdf_use : Recording) (error : Bool)
    (pretime_s posttime_s : ℚ) (offset plot : Bool) (offset_value : ℚ) :
    ∀ (ts : List ℕ) (es : List (Option Bool))
      (acc : Option (List (List (List ℚ)))) (ws' : List (List (List ℚ))),
      trialLoop gdf_use error pretime_s posttime_s offset plot offset_value
        ts es acc = .ok (some ws') →
      ∀ w ∈ ws', (∃ ws₀, acc = some ws₀ ∧ w ∈ ws₀) ∨
        ∃ t e, (t, e) ∈ ts.zip es ∧
          keepWindow gdf_use error pretime_s posttime_s offset plot
            offset_value t e = some w
  | [], es, acc, ws', h, w, hw => by
      rw [trialLoop] at h
      exact Or.inl ⟨ws', (Except.ok.inj h).symm ▸ rfl, hw⟩
  | t :: ts, [], acc, ws', h, w, hw => by
      rw [trialLoop] at h
      exact Except.noConfusion h
  | t :: ts, e :: es, acc, ws', h, w, hw => by
      rw [trialLoop] at h
      have IH := trialLoop_mem gdf_use error pretime_s posttime_s offset
        plot offset_value ts es _ ws' h w hw
      cases IH with
      | inr hrest =>
          obtain ⟨t', e', hmem, hk⟩ := hrest
          exact Or.inr ⟨t', e', List.mem_cons_of_mem _ hmem, hk⟩
      | inl hacc =>
          obtain ⟨ws₀, hws₀, hwmem⟩ := hacc
          cases hk : keepWindow gdf_use error pretime_s posttime_s offset
              plot offset_value t e with
          | none =>
              rw [hk] at hws₀
              exact Or.inl ⟨ws₀, hws₀, hwmem⟩
          | some w₀ =>
              rw [hk] at hws₀
              cases acc with
              | none =>
                  simp only [appendVol] at hws₀
                  obtain rfl : [w₀] = ws₀ := Option.some.inj hws₀
                  obtain rfl : w = w₀ := by simpa using hwmem
                  exact Or.inr ⟨t, e, by simp, hk⟩
              | some ws₁ =>
                  simp only [appendVol] at hws₀
                  obtain rfl : ws₁ ++ [w₀] = ws₀ := Option.some.inj hws₀
                  rw [List.mem_append] at hwmem
                  cases hwmem with
                  | inl h₁ => exact Or.inl ⟨ws₁, rfl, h₁⟩
                  | inr h₂ =>
                      obtain rfl : w = w₀ := by simpa using h₂
                      exact Or.inr ⟨t, e, by simp, hk⟩

theorem getEEGTrials_char (self_gdf : Recording) (self_mat : EE385VMatFile)
    (pretime posttime : ℚ) (error : Bool) (gdf_use : Recording)
    (offset : Bool) (offset_value : ℚ) (plot_trigger : ℕ)
    (hlen : (identifyErrors self_gdf self_mat).2.length ≤
      (identifyErrors self_gdf self_mat).1.length) :
    getEEGTrials self_gdf self_mat pretime posttime error gdf_use offset
      offset_value false plot_trigger =
    .ok (optVol (extractedWindows self_gdf self_mat pretime posttime error
      gdf_use offset offset_value false)) := by
  have hts : (timeArrayToSampleArray
      (identifyErrors self_gdf self_mat).2 512).length ≤
      (identifyErrors self_gdf self_mat).1.length := by
    simpa [timeArrayToSampleArray] using hlen
  unfold getEEGTrials extractedWindows
  rw [trialLoop_none_start gdf_use error (timeToSample pretime 512 * (-1))
    (timeToSample posttime 512) offset false offset_value
    (timeArrayToSampleArray (identifyErrors self_gdf self_mat).2 512)
    (identifyErrors self_gdf self_mat).1 hts]
  rfl

/-- C3: every trial in the volume getEEGTrials returns has shape exactly
(channel count, pre samples + post samples); in particular with
pre = 0.5 s and post = 1.0 s at the fixed 512 Hz conversion rate, every
surviving window is exactly 768 samples long. -/
theorem getEEGTrials_window_shape (self_gdf : Recording)
    (self_mat : EE385VMatFile) (pretime posttime : ℚ) (error : Bool)
    (gdf_use : Recording) (offset : Bool) (offset_value : ℚ)
    (plot_trigger : ℕ) (ws : List (List (List ℚ)))
    (hrect : recRect gdf_use = true)
    (hok : getEEGTrials self_gdf self_mat pretime posttime error gdf_use
      offset offset_value false plot_trigger = .ok (some ws)) :
    (∀ w ∈ ws, w.length = gdf_use.data.length ∧
      ∀ ch ∈ w, (ch.length : ℚ) =
        timeToSample pretime 512 + timeToSample posttime 512) ∧
    (pretime = 1/2 → posttime = 1 →
      ∀ w ∈ ws, ∀ ch ∈ w, ch.length = 768) := by
  have hmem : ∀ w ∈ ws, ∃ t e,
      keepWindow gdf_use error (timeToSample pretime 512 * (-1))
        (timeToSample posttime 512) offset false offset_value t e =
        some w := by
    unfold getEEGTrials at hok
    cases hres : trialLoop gdf_use error (timeToSample pretime 512 * (-1))
        (timeToSample posttime 512) offset false offset_value
        (timeArrayToSampleArray (identifyErrors self_gdf self_mat).2 512)
        (identifyErrors self_gdf self_mat).1 none with
    | error s =>
        rw [hres] at hok
        exact absurd hok (by simp)
    | ok g =>
        rw [hres] at hok
        simp only [Bool.false_eq_true, if_false] at hok
        obtain rfl : g = some ws := Except.ok.inj hok
        intro w hw
        rcases trialLoop_mem gdf_use error (timeToSample pretime 512 * (-1))
            (timeToSample posttime 512) offset false offset_value _ _ none
            ws hres w hw with ⟨ws₀, h₀, _⟩ | ⟨t, e, _, hk⟩
        · exact absurd h₀ (by simp)
        · exact ⟨t, e, hk⟩
  have hshape : ∀ w ∈ ws, w.length = gdf_use.data.length ∧
      ∀ ch ∈ w, (ch.length : ℚ) =
        timeToSample pretime 512 + timeToSample posttime 512 := by
    intro w hw
    obtain ⟨t, e, hk⟩ := hmem w hw
    obtain ⟨h1, h2⟩ := keepWindow_shape gdf_use error _ _ offset false
      offset_value t e w hrect hk
    refine ⟨h1, fun ch hch => ?_⟩
    rw [h2 ch hch]
    ring
  refine ⟨hshape, fun hpre hpost w hw ch hch => ?_⟩
  have := (hshape w hw).2 ch hch
  rw [hpre, hpost] at this
  unfold timeToSample at this
  norm_num at this
  exact_mod_cast this

/-- C4: a trial whose retrieved window is not exactly
pre samples + post samples long contributes nothing (its loop pass appends
no window), no exception is raised (the call returns .ok), and when zero
trials survive the call returns the undefined volume None instead of
failing. -/
theorem getEEGTrials_partial_failure (self_gdf : Recording)
    (self_mat : EE385VMatFile) (pretime posttime : ℚ) (error : Bool)
    (gdf_use : Recording) (offset : Bool) (offset_value : ℚ)
    (plot_trigger : ℕ)
    (hlen : (identifyErrors self_gdf self_mat).2.length ≤
      (identifyErrors self_gdf self_mat).1.length) :
    (∃ r, getEEGTrials self_gdf self_mat pretime posttime error gdf_use
      offset offset_value false plot_trigger = .ok r) ∧
    (∀ (t : ℕ) (e : Option Bool),
      ((sliceLen gdf_use.nsamp
          (truncInt ((t : ℚ) + timeToSample pretime 512 * (-1)))
          (truncInt ((t : ℚ) + timeToSample posttime 512)) : ℚ) ≠
        timeToSample pretime 512 * (-1) * (-1) + timeToSample posttime 512) →
      keepWindow gdf_use error (timeToSample pretime 512 * (-1))
        (timeToSample posttime 512) offset false offset_value t e = none) ∧
    (extractedWindows self_gdf self_mat pretime posttime error gdf_use
        offset offset_value false = [] →
      getEEGTrials self_gdf self_mat pretime posttime error gdf_use offset
        offset_value false plot_trigger = .ok none) := by
  refine ⟨⟨_, getEEGTrials_char self_gdf self_mat pretime posttime error
    gdf_use offset offset_value plot_trigger hlen⟩, ?_, ?_⟩
  · intro t e hne
    cases e with
    | none => rfl
    | some b =>
        simp only [keepWindow]
        by_cases hb : b = error
        · rw [if_pos hb, if_neg hne]
        · rw [if_neg hb]
  · intro h0
    rw [getEEGTrials_char self_gdf self_mat pretime posttime error gdf_use
      offset offset_value plot_trigger hlen, h0]
    rfl

/-- C8: getEEGTrials collects exactly the windows of the trials whose
label equals the requested filter value, in trial order (the filterMap of
the per-trial step over the label/onset pairing); a trial with the
Undefined label contributes nothing, and so does a trial whose label
differs from the requested value. -/
theorem getEEGTrials_filter_order (self_gdf : Recording)
    (self_mat : EE385VMatFile) (pretime posttime : ℚ) (error : Bool)
    (gdf_use : Recording) (offset : Bool) (offset_value : ℚ)
    (plot_trigger : ℕ)
    (hlen : (identifyErrors self_gdf self_mat).2.length ≤
      (identifyErrors self_gdf self_mat).1.length) :
    getEEGTrials self_gdf self_mat pretime posttime error gdf_use offset
      offset_value false plot_trigger =
      .ok (optVol (extractedWindows self_gdf self_mat pretime posttime
        error gdf_use offset offset_value false)) ∧
    (∀ t : ℕ, keepWindow gdf_use error (timeToSample pretime 512 * (-1))
      (timeToSample posttime 512) offset false offset_value t none =
      none) ∧
    (∀ (t : ℕ) (b : Bool), b ≠ error →
      keepWindow gdf_use error (timeToSample pretime 512 * (-1))
        (timeToSample posttime 512) offset false offset_value t (some b) =
        none) := by
  refine ⟨getEEGTrials_char self_gdf self_mat pretime posttime error
    gdf_use offset offset_value plot_trigger hlen, fun t => rfl,
    fun t b hb => ?_⟩
  simp only [keepWindow]
  rw [if_neg hb]

/-- Modelled from the spec: trial extraction as section 4.2 words it,
converting the pre/post durations and the onset times with the RECORDING's
sampling rate (its sfreq metadata) instead of the constant 512 the source
hardcodes.  Used only to compare the spec's wording against getEEGTrials. -/
def getEEGTrialsSpecRate (self_gdf : Recording) (self_mat : EE385VMatFile)
    (pretime posttime : ℚ) (error : Bool) (gdf_use : Recording)
    (offset : Bool) (offset_value : ℚ) (plot : Bool) (plot_trigger : ℕ) :
    Except String (Option (List (List (List ℚ)))) :=
  match trialLoop gdf_use error (timeToSample pretime gdf_use.sfreq * (-1))
      (timeToSample posttime gdf_use.sfreq) offset plot offset_value
      (timeArrayToSampleArray (identifyErrors self_gdf self_mat).2
        gdf_use.sfreq)
      (identifyErrors self_gdf self_mat).1 none with
  | .error s => .error s
  | .ok gdf_array =>
    if plot then
      match gdf_array with
      | none => .error "TypeError"
      | some ws =>
          if plot_trigger < ws.length then .ok gdf_array
          else .error "IndexError"
    else .ok gdf_array

/-- recW with its sampling-rate metadata set to 256 Hz instead of 512. -/
def recC : Recording := { recW with sfreq := 256 }

/-- C7 counterexample: on a recording whose sampling rate is 256 Hz, the
source's conversions (hardcoded 512) place the window at samples [4,6)
while conversion by the recording's own rate would place it at [2,3):
the extraction result differs from the rate-respecting one, so the
conversions do not use the recording's sampling rate. -/
theorem getEEGTrials_recording_rate_cex :
    getEEGTrials recC matW 0 (1/256) true recC false 30 false 0 =
      .ok (some [[[(4 : ℚ), 5]]]) ∧
    getEEGTrialsSpecRate recC matW 0 (1/256) true recC false 30 false 0 =
      .ok (some [[[(2 : ℚ)]]]) ∧
    getEEGTrials recC matW 0 (1/256) true recC false 30 false 0 ≠
      getEEGTrialsSpecRate recC matW 0 (1/256) true recC false 30 false 0 := by
  refine ⟨by with_unfolding_all rfl, by with_unfolding_all rfl, ?_⟩
  intro h
  rw [show getEEGTrials recC matW 0 (1/256) true recC false 30 false 0 =
      .ok (some [[[(4 : ℚ), 5]]]) from by with_unfolding_all rfl,
    show getEEGTrialsSpecRate recC matW 0 (1/256) true recC false 30
        false 0 = .ok (some [[[(2 : ℚ)]]]) from by
      with_unfolding_all rfl] at h
  simp only [Except.ok.injEq, Option.some.injEq, List.cons.injEq,
    and_true] at h
  exact absurd h.2 (by simp)

theorem keepWindow_congr (u u' : Recording) (error : Bool) (ps qs : ℚ)
    (offset plot : Bool) (ov : ℚ) (hn : u.nsamp = u'.nsamp)
    (hd : u.data = u'.data) (t : ℕ) (e : Option Bool) :
    keepWindow u error ps qs offset plot ov t e =
    keepWindow u' error ps qs offset plot ov t e := by
  cases e with
  | none => rfl
  | some b => simp only [keepWindow, get_data, hn, hd]

theorem trialLoop_congr (u u' : Recording) (error : Bool) (ps qs : ℚ)
    (offset plot : Bool) (ov : ℚ) (hn : u.nsamp = u'.nsamp)
    (hd : u.data = u'.data) :
    ∀ (ts : List ℕ) (es : List (Option Bool))
      (acc : Option (List (List (List ℚ)))),
      trialLoop u error ps qs offset plot ov ts es acc =
      trialLoop u' error ps qs offset plot ov ts es acc
  | [], _, acc => rfl
  | _ :: _, [], _ => rfl
  | t :: ts, e :: es, acc => by
      rw [trialLoop, trialLoop,
        keepWindow_congr u u' error ps qs offset plot ov hn hd t e]
      exact trialLoop_congr u u' error ps qs offset plot ov hn hd ts es _

/-- C7 amended: all of getEEGTrials' window math converts with the fixed
rate of 512 samples per second (timeToSample's source default and the
constant passed to timeArrayToSampleArray), the same constant for the
pre/post durations and for the onset times, with truncation applied to
the onset conversion; the recordings' own sampling-rate metadata plays no
part: changing sfreq on either recording leaves the result unchanged. -/
theorem getEEGTrials_fixed_rate (self_gdf : Recording)
    (self_mat : EE385VMatFile) (pretime posttime : ℚ) (error : Bool)
    (gdf_use : Recording) (offset : Bool) (offset_value : ℚ) (plot : Bool)
    (plot_trigger : ℕ) (f1 f2 : ℚ) :
    getEEGTrials { self_gdf with sfreq := f1 } self_mat pretime posttime
      error { gdf_use with sfreq := f2 } offset offset_value plot
      plot_trigger =
    getEEGTrials self_gdf self_mat pretime posttime error gdf_use offset
      offset_value plot plot_trigger := by
  unfold getEEGTrials
  rw [show identifyErrors { self_gdf with sfreq := f1 } self_mat =
    identifyErrors self_gdf self_mat from rfl]
  rw [trialLoop_congr { gdf_use with sfreq := f2 } gdf_use error
    (timeToSample pretime 512 * (-1)) (timeToSample posttime 512) offset
    plot offset_value rfl rfl]

theorem getEEGTrials_window_shape_witness :
    recRect recW = true ∧
    getEEGTrials recW matW 0 (1/256) true recW false 30 false 0 =
      .ok (some [[[(4 : ℚ), 5]]]) ∧
    (([(4 : ℚ), 5] : List ℚ).length : ℚ) =
      timeToSample 0 512 + timeToSample (1/256) 512 :=
  ⟨by decide, by with_unfolding_all rfl,
    (((getEEGTrials_window_shape recW matW 0 (1/256) true recW false 30 0
          [[[(4 : ℚ), 5]]] (by decide)
          (by with_unfolding_all rfl)).1
        [[(4 : ℚ), 5]] (by with_unfolding_all decide)).2
      [(4 : ℚ), 5] (by with_unfolding_all decide))⟩

theorem getEEGTrials_partial_failure_witness :
    (identifyErrors recW matW).2.length ≤
      (identifyErrors recW matW).1.length ∧
    extractedWindows recW matW 0 (1/256) false recW false 30 false = [] ∧
    getEEGTrials recW matW 0 (1/256) false recW false 30 false 0 =
      .ok none :=
  ⟨by decide, by with_unfolding_all rfl,
    (getEEGTrials_partial_failure recW matW 0 (1/256) false recW false 30
      0 (by decide)).2.2 (by with_unfolding_all rfl)⟩

theorem getEEGTrials_filter_order_witness :
    (identifyErrors recW matW).2.length ≤
      (identifyErrors recW matW).1.length ∧
    getEEGTrials recW matW 0 (1/256) true recW false 30 false 0 =
      .ok (optVol (extractedWindows recW matW 0 (1/256) true recW false 30
        false)) :=
  ⟨by decide, (getEEGTrials_filter_order recW matW 0 (1/256) true recW
    false 30 0 (by decide)).1⟩

/-- Bool test that pat occurs as a contiguous run inside l. -/
def containsSub : List Char → List Char → Bool
  | pat, [] => pat.isEmpty
  | pat, c :: rest => pat.isPrefixOf (c :: rest) || containsSub pat rest

/-- Python's substring test `pat in s`. -/
def strContains (pat s : String) : Bool := containsSub pat.toList s.toList

/-- The loop of EEG.splitTrigger (lines 104-108): the index of the first
channel whose name contains the trigger substring, if any. -/
def findTrigger (trig : String) : List String → Option ℕ
  | [] => none
  | ch :: rest =>
      if strContains trig ch then some 0
      else (findTrigger trig rest).map (fun i => i + 1)

/-- EEG.splitTrigger (lines 97-108): on the first matching channel it
returns (the recording without that channel, that channel's data); when no
channel name contains the substring the loop falls through and the method
implicitly returns None. -/
def splitTrigger (gdf : Recording) (trig : String) :
    Option (Recording × List ℚ) :=
  match findTrigger trig gdf.chNames with
  | none => none
  | some i =>
      some
        ({ gdf with
            chNames := gdf.chNames.eraseIdx i
            data := gdf.data.eraseIdx i },
          gdf.data.getD i [])

/-- Line 67 of EEG.open: the tuple unpack
`self.__eeg, self.__trigger = self.splitTrigger(trigger='trigger')`;
unpacking None raises TypeError. -/
def openSplit (gdf : Recording) : Except String (Recording × List ℚ) :=
  match splitTrigger gdf "trigger" with
  | none => .error "TypeError: cannot unpack non-iterable NoneType object"
  | some p => .ok p

theorem findTrigger_none (trig : String) :
    ∀ names : List String, (∀ ch ∈ names, strContains trig ch = false) →
      findTrigger trig names = none
  | [], _ => rfl
  | ch :: rest, h => by
      rw [findTrigger, if_neg (by simp [h ch (by simp)]),
        findTrigger_none trig rest (fun c hc => h c (by simp [hc]))]
      rfl

/-- C10: when no channel name of the recording contains the trigger
substring, splitTrigger returns None instead of a pair, and open's tuple
unpack of that result fails with a TypeError. -/
theorem splitTrigger_no_trigger (gdf : Recording)
    (h : ∀ ch ∈ gdf.chNames, strContains "trigger" ch = false) :
    splitTrigger gdf "trigger" = none ∧
    openSplit gdf =
      .error "TypeError: cannot unpack non-iterable NoneType object" := by
  have hf : findTrigger "trigger" gdf.chNames = none :=
    findTrigger_none "trigger" gdf.chNames h
  constructor
  · unfold splitTrigger
    rw [hf]
  · unfold openSplit splitTrigger
    rw [hf]

theorem splitTrigger_no_trigger_witness :
    (∀ ch ∈ recW.chNames, strContains "trigger" ch = false) ∧
    (splitTrigger recW "trigger" = none ∧
      openSplit recW =
        .error "TypeError: cannot unpack non-iterable NoneType object") :=
  ⟨by with_unfolding_all decide,
    splitTrigger_no_trigger recW (by with_unfolding_all decide)⟩
